import Mathlib

/-!
Verification of the dashmiddleware request-interception pipeline
(`src/dashmiddleware.go`).

The Go source is shallowly embedded: strings are `String` (manipulated via
their `List Char` data), external HTTP collaborators are inputs
(`Option` = transport failure / response), and `ServeHTTP` becomes a pure
function from the request and the collaborators' behaviour to an observable
trace (client write events, downstream invocations, outbound calls).
-/

namespace DashMiddleware

/-! ### Referer metadata extraction

`dashmiddleware.go` lines 63–69 compile
  frameRegex   = `(?:.*[?&]frame=)([^&]+)`
  layoutRegex  = `(?:.*[?&]layout=)([^&]+)`
  baseURLRegex = `https:\/\/[^\/]+(.+?)\/\?`
and `src/unnamed/part_001` additionally compiles
  stateRegex   = `(?:.*[?&]state=)([^&]+)`
all used with `FindStringSubmatch` (leftmost-first, Perl-style semantics:
`.` does not match a newline, a negated class such as `[^&]` does). -/

/-- Anchored match of `[?&]key=` followed by a nonempty greedy `[^&]+` at the
head of `t`; returns the captured value. -/
def paramOcc (key : List Char) (t : List Char) : Option (List Char) :=
  match t with
  | [] => none
  | c :: r =>
    if (c = '?' ∨ c = '&') ∧ (key ++ ['=']).isPrefixOf r then
      let v := (r.drop (key.length + 1)).takeWhile (fun d => d ≠ '&')
      if v = [] then none else some v
    else none

/-- The greedy leading `.*` of `(?:.*[?&]key=)([^&]+)` prefers the longest
prefix it can swallow, i.e. the latest occurrence of `[?&]key=` (with a
nonempty value) reachable from the current start position; since `.` does not
match a newline the scan stops at the first newline. -/
def lastOccInLine (key : List Char) : List Char → Option (List Char)
  | [] => none
  | c :: r =>
    if c = '\n' then none
    else
      match lastOccInLine key r with
      | some v => some v
      | none => paramOcc key (c :: r)

/-- Unanchored leftmost-first search: try every start position from the left;
at each, the greedy `.*` picks the last reachable occurrence. -/
def matchParam (key : List Char) : List Char → Option (List Char)
  | [] => none
  | c :: r =>
    match lastOccInLine key (c :: r) with
    | some v => some v
    | none => matchParam key r

/-- `frame`/`layout`/`state` extraction as done at `dashmiddleware.go`
lines 116–132: the captured group when the regex matches, `""` otherwise. -/
def extractParam (key : String) (referer : String) : String :=
  match matchParam key.data referer.data with
  | some v => ⟨v⟩
  | none => ""

/-- All occurrences (in textual order) of `[?&]key=` followed by a nonempty
run of non-`&` characters, with their captured values.  Specification-side
notion used to state which occurrence the regex selects. -/
def occList (key : List Char) : List Char → List (List Char)
  | [] => []
  | c :: r =>
    (match paramOcc key (c :: r) with
     | some v => [v]
     | none => []) ++ occList key r

/-- Lazy `(.+?)` followed by the literal `/?` of `baseURLRegex`, starting
after `h` consumed characters of `t`: the shortest nonempty newline-free
capture followed by `/?`. -/
def baseCapture (t : List Char) (h : Nat) : Option (List Char) :=
  (List.range (t.length + 1)).findSome? (fun j =>
    if h + 1 ≤ j ∧ ['/', '?'].isPrefixOf (t.drop j)
        ∧ ((t.drop h).take (j - h)).all (fun c => c ≠ '\n')
    then some ((t.drop h).take (j - h)) else none)

/-- Match of `[^\/]+(.+?)\/\?` on the text following `https://`: the greedy
`[^/]+` prefers the longest host run, backing off one character at a time. -/
def baseMatchAt (t : List Char) : Option (List Char) :=
  let m := (t.takeWhile (fun c => c ≠ '/')).length
  (List.range m).findSome? (fun i => baseCapture t (m - i))

/-- Leftmost-first search for `baseURLRegex`: try each position where the
literal `https://` matches, earliest first. -/
def matchBase : List Char → Option (List Char)
  | [] => none
  | c :: r =>
    if ("https://".data).isPrefixOf (c :: r) then
      match baseMatchAt ((c :: r).drop 8) with
      | some v => some v
      | none => matchBase r
    else matchBase r

/-- The referer base path (`dashmiddleware.go` lines 128–132). -/
def extractBase (referer : String) : String :=
  match matchBase referer.data with
  | some v => ⟨v⟩
  | none => ""

example : extractParam "frame" "https://h/app/?frame=F1&layout=L2&state=S3" = "F1" := by decide
example : extractParam "layout" "https://h/app/?frame=F1&layout=L2&state=S3" = "L2" := by decide
example : extractParam "state" "https://h/app/?frame=F1&layout=L2&state=S3" = "S3" := by decide
example : extractParam "frame" "" = "" := by decide
example : extractBase "https://h/app/?frame=F1" = "/app" := by decide
example : extractParam "frame" "https://h/?frame=A&x=1&frame=B" = "B" := by decide

/-! ### Cookie sanitation

`dashmiddleware.go` lines 63–104: every `cookie` header line is split with
  splitRegexp = ` *([^=;]+?) *=[^;]+`
via `FindAllStringSubmatch(line, -1)`; a pair is kept when its captured name
does not have the prefix `_oauth2_proxy`; the kept full matches are joined
with `;`, `strings.TrimSpace`d and re-attached as a single cookie line (only
when at least one pair survived). -/

/-- The lazy `([^=;]+?)` followed by the greedy ` *` and the literal `=`:
consume name characters (anything but `=` and `;`) one at a time, stopping as
soon as the remaining text starts with spaces followed by `=`.  Returns the
captured name and the text after the `=`. -/
def nameScan (acc : List Char) : List Char → Option (List Char × List Char)
  | [] => none
  | c :: r =>
    if c = '=' ∨ c = ';' then none
    else
      let acc2 := acc ++ [c]
      let r2 := r.dropWhile (fun d => d = ' ')
      if r2.head? = some '=' then some (acc2, r2.tail)
      else nameScan acc2 r

/-- Anchored match of ` *([^=;]+?) *=[^;]+` at the head of `t`: greedy
leading spaces, lazy name, then the greedy nonempty value `[^;]+`.
Backtracking notes, mirroring Go's leftmost-first search at this anchor:
the `=` found by the lazy name scan is the first `=` before any `;`, the
same for every choice of leading-space run, so when the value after it is
empty no choice of lead or longer name can rescue the anchor (the name
cannot contain `=`).  The one productive backtrack is the greedy leading
` *` giving back one space when the text after the space run starts
directly with `=`: the lazy name then matches that single space (so a line
such as `"  =1"` yields a pair named `" "`).  Returns (captured name, full
match text, rest of the input). -/
def pairAt (t : List Char) : Option (List Char × List Char × List Char) :=
  let lead := t.takeWhile (fun c => c = ' ')
  let u := t.drop lead.length
  match nameScan [] u with
  | none =>
    if 1 ≤ lead.length ∧ u.head? = some '=' then
      let v := u.tail.takeWhile (fun c => c ≠ ';')
      if v = [] then none
      else
        let rest := u.tail.drop v.length
        some ([' '], t.take (t.length - rest.length), rest)
    else none
  | some (name, afterEq) =>
    let v := afterEq.takeWhile (fun c => c ≠ ';')
    if v = [] then none
    else
      let rest := afterEq.drop v.length
      some (name, t.take (t.length - rest.length), rest)

/-- `FindAllStringSubmatch(line, -1)`: repeatedly take the leftmost match and
continue after it.  Fuel-indexed so the definition is structural; `t.length`
fuel always suffices because every step consumes at least one character. -/
def findPairsF : Nat → List Char → List (List Char × List Char)
  | 0, _ => []
  | _ + 1, [] => []
  | fuel + 1, c :: r =>
    match pairAt (c :: r) with
    | some (n, f, rest) => (n, f) :: findPairsF fuel rest
    | none => findPairsF fuel r

/-- The list of (name, full match) pairs `splitRegexp` finds in a line. -/
def findPairs (t : List Char) : List (List Char × List Char) :=
  findPairsF t.length t

/-- The reserved auth-proxy cookie name marker (`dashmiddleware.go` line 97). -/
def reservedCookie : List Char := "_oauth2_proxy".data

/-- `!strings.HasPrefix(cookie[1], "_oauth2_proxy")`: keep a pair when its
name does not start with the reserved marker. -/
def keepPred (p : List Char × List Char) : Bool :=
  ¬ reservedCookie.isPrefixOf p.1

/-- Full-match texts of the pairs whose name does not start with the reserved
marker (`keep` in the Go loop). -/
def keepPairs (line : List Char) : List (List Char) :=
  ((findPairs line).filter keepPred).map Prod.snd

/-- `strings.Join(keep, ";")`. -/
def joinSemi : List (List Char) → List Char
  | [] => []
  | [x] => x
  | x :: y :: xs => x ++ ';' :: joinSemi (y :: xs)

/-- The whitespace trimmed by `strings.TrimSpace`, i.e. `unicode.IsSpace`:
the ASCII space characters together with the Unicode White_Space code
points (NEL, NBSP, OGHAM SPACE MARK, the U+2000–U+200A spaces, LINE and
PARAGRAPH SEPARATOR, NARROW NO-BREAK SPACE, MEDIUM MATHEMATICAL SPACE and
IDEOGRAPHIC SPACE). -/
def goSpace (c : Char) : Bool :=
  c = ' ' ∨ c = '\t' ∨ c = '\n' ∨ c = '\x0b' ∨ c = '\x0c' ∨ c = '\r'
    ∨ c = '\u0085' ∨ c = '\u00A0' ∨ c = '\u1680'
    ∨ ('\u2000' ≤ c ∧ c ≤ '\u200A')
    ∨ c = '\u2028' ∨ c = '\u2029' ∨ c = '\u202F' ∨ c = '\u205F' ∨ c = '\u3000'

/-- `strings.TrimSpace`. -/
def trimSpace (t : List Char) : List Char :=
  ((t.dropWhile goSpace).reverse.dropWhile goSpace).reverse

/-- The cookie rewrite of `dashmiddleware.go` lines 88–104: all original
cookie lines are removed; for each line the surviving pairs are rejoined and
re-added as one line (skipped when none survive).  Returns the cookie lines
of the forwarded request. -/
def forwardCookies (lines : List String) : List String :=
  lines.filterMap (fun line =>
    let keep := keepPairs line.data
    if keep = [] then none else some (⟨trimSpace (joinSemi keep)⟩ : String))

example : forwardCookies ["a=1; _oauth2_proxy_x=s; b=2"] = ["a=1; b=2"] := by decide
example : forwardCookies ["_oauth2_proxy=s"] = [] := by decide
example : forwardCookies ["a=;b=2"] = ["b=2"] := by decide
example : forwardCookies [" a = 1 ;b=2"] = ["a = 1 ;b=2"] := by decide
example : forwardCookies ["  =1"] = ["=1"] := by decide
example : trimSpace "1\u00A0".data = ['1'] := by decide

/-! ### The ServeHTTP pipeline

`ServeHTTP` (`dashmiddleware.go` lines 83–333) is embedded as a pure
function.  The external collaborators become inputs:

* the inbound request is a snapshot of the consumed headers, the URL and the
  result of reading the body (`none` = `io.ReadAll` error);
* each outbound HTTP call is an `Option` response (`none` = transport error,
  i.e. Go `err != nil` with a nil `*http.Response`);
* the downstream handler `next` is abstracted by the headers it sets, the
  status it writes and the body bytes it writes.

The observable behaviour is a `Trace`: the ordered write events on the
client `ResponseWriter`, the number of downstream invocations, the bytes
accumulated by the `CapturingResponseWriter`, and the payloads of the
outbound cache / layout / track calls.  Wall-clock duration is not modelled
(no claim concerns it); writes to the client and reads of collaborator
response bodies are assumed to succeed (their failures only log and return
after the observable effects considered here); Go iterates the cache
response's header map in unspecified order, which the embedding fixes to
the given list order (no claim concerns the relative order of two replayed
headers).  `panicked` records the nil-pointer dereference that Go performs
when `resp.StatusCode` is read from a nil response. -/

/-- Write events observable on the client `http.ResponseWriter`.
`setHeader`/`addHeader` are `Header().Set`/`Header().Add`. -/
inductive WEvent where
  | setHeader (k v : String)
  | addHeader (k v : String)
  | writeHeader (status : Nat)
  | write (bytes : String)
deriving DecidableEq

/-- A response from the result-cache service (`resultURL`). -/
structure CacheResp where
  status : Nat
  headers : List (String × String)
  body : String
deriving DecidableEq

/-- A response from the layout service (`layoutURL`). -/
structure LayoutResp where
  status : Nat
  body : String
deriving DecidableEq

/-- Abstraction of the downstream handler `next`: what it does to the
response writer it is handed. -/
structure Downstream where
  headers : List (String × String)
  status : Option Nat
  body : String
deriving DecidableEq

/-- Behaviour of all external collaborators for one request.  The track
POST's outcome is not included: the code only logs it, with no observable
effect. -/
structure Env where
  cacheResp : Option CacheResp
  layoutResp : Option LayoutResp
  downstream : Downstream
deriving DecidableEq

/-- Snapshot of the inbound request after the header reads at
`dashmiddleware.go` lines 89–117. -/
structure Req where
  cookieLines : List String
  email : List String
  groups : List String
  longcallback : List String
  referer : String
  url : String
  bodyRead : Option String
deriving DecidableEq

/-- The JSON document POSTed to the layout service (`LayoutRequestData`). -/
structure LayoutPayload where
  email : List String
  layout : String
  frame : String
deriving DecidableEq

/-- The JSON document POSTed to the result-cache service (lines 219–223). -/
structure ProbePayload where
  request : String
  url : String
  longcallback : Bool
deriving DecidableEq

/-- The headers set on the outbound tracking request (lines 303–314). -/
structure TrackHeaders where
  expires : String
  contentType : String
  contentEncoding : Option String
deriving DecidableEq

/-- The tracking record (lines 277–287; `Duration` is wall-clock time and is
not modelled) together with the headers of the tracking request. -/
structure TrackPayload where
  request : String
  result : String
  url : String
  email : List String
  groups : List String
  frame : String
  cached : Bool
  refererBase : String
  hdrs : TrackHeaders
deriving DecidableEq

/-- Observable trace of one `ServeHTTP` execution.  `cacheReplayed` and
`accepted202` mark which branch of the miss/hit policy ran; `readFailed`
marks the early return on a body read error; `panicked` marks the Go runtime
panic from dereferencing a nil response. -/
structure Trace where
  forwardedCookies : List String
  clientEvents : List WEvent
  downstreamCalls : Nat
  capturedBody : String
  cacheProbe : Option ProbePayload
  layoutCall : Option LayoutPayload
  trackCall : Option TrackPayload
  cacheReplayed : Bool
  accepted202 : Bool
  readFailed : Bool
  panicked : Bool
deriving DecidableEq

/-- `strings.HasSuffix`. -/
def hasSuffixS (s suffix : String) : Bool :=
  suffix.data.isSuffixOf s.data

/-- State of the `Header()` map after a list of write events: `Set` replaces
the values of a key, `Add` appends one. -/
def applyEvent (hs : List (String × String)) : WEvent → List (String × String)
  | .setHeader k v => hs.filter (fun p => p.1 ≠ k) ++ [(k, v)]
  | .addHeader k v => hs ++ [(k, v)]
  | _ => hs

def respHeaders (evs : List WEvent) : List (String × String) :=
  evs.foldl applyEvent []

/-- `Header().Get`: the first value of the key, `""` when absent. -/
def headerGet (hs : List (String × String)) (k : String) : String :=
  match hs.find? (fun p => p.1 = k) with
  | some p => p.2
  | none => ""

/-- The body chunks written to the client, in order. -/
def bodyChunks (evs : List WEvent) : List String :=
  evs.filterMap (fun e => match e with | .write s => some s | _ => none)

/-- The events the downstream handler performs on the writer it receives. -/
def downstreamEvents (d : Downstream) : List WEvent :=
  d.headers.map (fun p => WEvent.setHeader p.1 p.2)
    ++ (match d.status with | some n => [WEvent.writeHeader n] | none => [])
    ++ [WEvent.write d.body]

/-- The tracking payload built at lines 277–314: the response headers are
read back from the real writer's `Header()` map, and `Content-Encoding` is
forwarded only when its value is exactly `"gzip"` (line 312). -/
def mkTrack (body result url : String) (email groups : List String)
    (frame : String) (cached : Bool) (refBase : String)
    (evs : List WEvent) : TrackPayload :=
  let hs := respHeaders evs
  { request := body, result := result, url := url, email := email,
    groups := groups, frame := frame, cached := cached,
    refererBase := refBase,
    hdrs := { expires := headerGet hs "Expires",
              contentType := headerGet hs "Content-Type",
              contentEncoding :=
                if headerGet hs "Content-Encoding" = "gzip"
                then some "gzip" else none } }

/-- The layout short-circuit guard (line 152):
`layout != "" && strings.HasSuffix(url, "/_dash-layout")`. -/
def layoutRouteB (req : Req) : Bool :=
  decide (extractParam "layout" req.referer ≠ "") && hasSuffixS req.url "/_dash-layout"

/-- The recorded-route check (lines 200–206). -/
def recordedB (recordedURLs : List String) (url : String) : Bool :=
  recordedURLs.any (fun u => hasSuffixS url u)

/-- The empty trace carrying only the cookie rewrite (which happens first,
lines 88–104, before any early return is possible). -/
def baseTrace (req : Req) : Trace :=
  { forwardedCookies := forwardCookies req.cookieLines,
    clientEvents := [], downstreamCalls := 0, capturedBody := "",
    cacheProbe := none, layoutCall := none, trackCall := none,
    cacheReplayed := false, accepted202 := false,
    readFailed := false, panicked := false }

/-- Shallow embedding of `ServeHTTP` (`dashmiddleware.go` lines 83–333). -/
def serveHTTP (recordedURLs : List String) (req : Req) (env : Env) : Trace :=
  let base := baseTrace req
  let isLongCallback := !req.longcallback.isEmpty
  let frame := extractParam "frame" req.referer
  let layout := extractParam "layout" req.referer
  let refererBase := extractBase req.referer
  match req.bodyRead with
  | none =>
    -- lines 140–144: log and return; nothing is ever written to the client
    { base with readFailed := true }
  | some body =>
    if layoutRouteB req then
      -- lines 152–197: layout short-circuit
      let lreq : LayoutPayload := ⟨req.email, layout, frame⟩
      match env.layoutResp with
      | none => { base with layoutCall := some lreq }      -- postErr: log, return
      | some r =>
        if r.status ≠ 200 then
          { base with layoutCall := some lreq }            -- log, return
        else
          { base with
            layoutCall := some lreq,
            clientEvents := [.setHeader "Content-Type" "application/json",
                             .write r.body] }
    else if !recordedB recordedURLs req.url then
      -- lines 208–211: pass through with the plain writer, nothing captured
      { base with
        clientEvents := downstreamEvents env.downstream,
        downstreamCalls := 1 }
    else
      let probe : ProbePayload := ⟨body, req.url, isLongCallback⟩
      match env.cacheResp with
      | none =>
        -- lines 234–239: err != nil is only logged, then `resp.StatusCode`
        -- dereferences the nil response: runtime panic
        { base with
          cacheProbe := some probe,
          panicked := true }
      | some r =>
        if r.status = 200 then
          -- lines 239–261: hit replay through the capturing writer
          let evs := r.headers.map (fun p => WEvent.addHeader p.1 p.2)
            ++ [.writeHeader 200, .write r.body]
          { base with
            cacheProbe := some probe,
            cacheReplayed := true,
            clientEvents := evs,
            capturedBody := r.body,
            trackCall := some (mkTrack body r.body req.url req.email
              req.groups frame true refererBase evs) }
        else if isLongCallback then
          -- lines 263–267: 202 Accepted, stop
          { base with
            cacheProbe := some probe,
            accepted202 := true,
            clientEvents := [.writeHeader 202] }
        else
          -- lines 269–271: forward downstream through the capturing writer
          let evs := downstreamEvents env.downstream
          { base with
            cacheProbe := some probe,
            downstreamCalls := 1,
            clientEvents := evs,
            capturedBody := env.downstream.body,
            trackCall := some (mkTrack body env.downstream.body req.url
              req.email req.groups frame false refererBase evs) }

/-! ### Concrete fixtures (the default configuration of `CreateConfig`). -/

def cfg0 : List String := ["/_dash-update-component", "/_dash-layout"]

def req0 : Req :=
  { cookieLines := [], email := ["u@h"], groups := ["g1"],
    longcallback := [], referer := "https://h/app/?frame=F1&layout=L2",
    url := "http://a/app/_dash-update-component", bodyRead := some "B0" }

def env0 : Env :=
  { cacheResp := some { status := 404, headers := [], body := "" },
    layoutResp := none,
    downstream := { headers := [("Content-Type", "application/json")],
                    status := none, body := "D0" } }

example :
    (serveHTTP cfg0 req0 env0).downstreamCalls = 1 ∧
    (serveHTTP cfg0 req0 env0).capturedBody = "D0" ∧
    (serveHTTP cfg0 req0 env0).cacheProbe = some ⟨"B0", "http://a/app/_dash-update-component", false⟩ := by
  decide

example :
    (serveHTTP cfg0 { req0 with longcallback := ["true"] } env0).clientEvents
      = [.writeHeader 202] := by decide

/-! ### Helper lemmas about traces -/

theorem bodyChunks_replay (hs : List (String × String)) (b : String) :
    bodyChunks (hs.map (fun p => WEvent.addHeader p.1 p.2)
      ++ [.writeHeader 200, .write b]) = [b] := by
  induction hs with
  | nil => rfl
  | cons p t ih => simp only [List.map_cons, List.cons_append, bodyChunks,
      List.filterMap_cons] at ih ⊢; exact ih

/-! ### Claims about the cache probe and the admission policy -/

/-- C1 (failing input): for a recordable request whose cache-probe POST fails
at the transport level, `http.Post` returns a nil response and a non-nil
error; the code logs the error but does not return (line 237) and then reads
`resp.StatusCode` from the nil pointer (line 239) — a runtime panic that
kills the request before anything is written to the client.  The probe is
not treated as a miss: the downstream handler is never invoked and no 202 is
sent. -/
theorem cache_transport_failure_panics :
    (serveHTTP cfg0 req0 { env0 with cacheResp := none }).panicked = true ∧
    (serveHTTP cfg0 req0 { env0 with cacheResp := none }).clientEvents = [] ∧
    (serveHTTP cfg0 req0 { env0 with cacheResp := none }).downstreamCalls = 0 ∧
    (serveHTTP cfg0 req0 { env0 with cacheResp := none }).accepted202 = false ∧
    (serveHTTP cfg0 req0 { env0 with cacheResp := none }).trackCall = none := by
  decide

/-- C1 (the claim's non-200 half, which does hold): a probe response with any
non-200 status is treated as a miss — the request proceeds to the 202 or the
downstream-forwarding branch and is never aborted. -/
theorem cache_non200_is_miss (cfg : List String) (req : Req) (env : Env)
    (b : String) (r : CacheResp)
    (hlay : layoutRouteB req = false)
    (hrec : recordedB cfg req.url = true)
    (hbody : req.bodyRead = some b)
    (hcache : env.cacheResp = some r)
    (hmiss : r.status ≠ 200) :
    (serveHTTP cfg req env).panicked = false ∧
    (serveHTTP cfg req env).cacheReplayed = false ∧
    (if req.longcallback.isEmpty then
      (serveHTTP cfg req env).downstreamCalls = 1
     else (serveHTTP cfg req env).accepted202 = true) := by
  by_cases hlc : req.longcallback.isEmpty <;>
    simp [serveHTTP, hbody, hlay, hrec, hcache, hmiss, hlc, baseTrace]

theorem cache_non200_is_miss_witness :
    (serveHTTP cfg0 req0 env0).panicked = false ∧
    (serveHTTP cfg0 req0 env0).cacheReplayed = false ∧
    (if req0.longcallback.isEmpty then
      (serveHTTP cfg0 req0 env0).downstreamCalls = 1
     else (serveHTTP cfg0 req0 env0).accepted202 = true) :=
  cache_non200_is_miss cfg0 req0 env0 "B0" { status := 404, headers := [], body := "" }
    (by decide) (by decide) (by decide) (by decide) (by decide)

/-- C3: on a cache miss with the long-callback flag set (the `X-Longcallback`
header was present), the client gets exactly a 202 status, the downstream
handler is never invoked, and no telemetry record is sent. -/
theorem miss_longcallback_202 (cfg : List String) (req : Req) (env : Env)
    (b : String) (r : CacheResp)
    (hlay : layoutRouteB req = false)
    (hrec : recordedB cfg req.url = true)
    (hbody : req.bodyRead = some b)
    (hcache : env.cacheResp = some r)
    (hmiss : r.status ≠ 200)
    (hlc : req.longcallback.isEmpty = false) :
    (serveHTTP cfg req env).clientEvents = [.writeHeader 202] ∧
    (serveHTTP cfg req env).downstreamCalls = 0 ∧
    (serveHTTP cfg req env).trackCall = none ∧
    (serveHTTP cfg req env).accepted202 = true := by
  simp [serveHTTP, hbody, hlay, hrec, hcache, hmiss, hlc, baseTrace]

theorem miss_longcallback_202_witness :
    (serveHTTP cfg0 { req0 with longcallback := ["1"] } env0).clientEvents
        = [.writeHeader 202] ∧
    (serveHTTP cfg0 { req0 with longcallback := ["1"] } env0).downstreamCalls = 0 ∧
    (serveHTTP cfg0 { req0 with longcallback := ["1"] } env0).trackCall = none ∧
    (serveHTTP cfg0 { req0 with longcallback := ["1"] } env0).accepted202 = true :=
  miss_longcallback_202 cfg0 _ env0 "B0" { status := 404, headers := [], body := "" }
    (by decide) (by decide) (by decide) (by decide) (by decide) (by decide)

/-- C4: on a cache hit (probe status 200) the downstream handler is never
invoked; every header of the cache response is replayed (as `Add` events)
before the status and the hit body are written; the only body chunk the
client receives is the cache body; the same bytes are captured as the
Result; and the telemetry record carries `Cached = true` with that Result. -/
theorem cache_hit_replay (cfg : List String) (req : Req) (env : Env)
    (b : String) (r : CacheResp)
    (hlay : layoutRouteB req = false)
    (hrec : recordedB cfg req.url = true)
    (hbody : req.bodyRead = some b)
    (hcache : env.cacheResp = some r)
    (hhit : r.status = 200) :
    (serveHTTP cfg req env).downstreamCalls = 0 ∧
    (serveHTTP cfg req env).clientEvents
      = r.headers.map (fun p => WEvent.addHeader p.1 p.2)
        ++ [.writeHeader 200, .write r.body] ∧
    bodyChunks (serveHTTP cfg req env).clientEvents = [r.body] ∧
    (serveHTTP cfg req env).capturedBody = r.body ∧
    ∃ p, (serveHTTP cfg req env).trackCall = some p ∧
      p.cached = true ∧ p.result = r.body := by
  refine ⟨?_, ?_, ?_, ?_, ?_⟩ <;>
    simp [serveHTTP, hbody, hlay, hrec, hcache, hhit, baseTrace,
      bodyChunks_replay, mkTrack]

def hitResp : CacheResp :=
  { status := 200, headers := [("Content-Type", "application/json")],
    body := "H0" }

def envHit : Env := { env0 with cacheResp := some hitResp }

theorem cache_hit_replay_witness :
    (serveHTTP cfg0 req0 envHit).downstreamCalls = 0 ∧
    (serveHTTP cfg0 req0 envHit).clientEvents
      = hitResp.headers.map (fun p => WEvent.addHeader p.1 p.2)
        ++ [.writeHeader 200, .write hitResp.body] ∧
    bodyChunks (serveHTTP cfg0 req0 envHit).clientEvents = [hitResp.body] ∧
    (serveHTTP cfg0 req0 envHit).capturedBody = hitResp.body ∧
    ∃ p, (serveHTTP cfg0 req0 envHit).trackCall = some p ∧
      p.cached = true ∧ p.result = hitResp.body :=
  cache_hit_replay cfg0 req0 envHit "B0" hitResp
    (by decide) (by decide) (by decide) rfl rfl

/-- C5: a recordable (recorded, non-layout) request that completes
`ServeHTTP` — the body read succeeded and the cache probe did not hit the
nil-response panic — performs exactly one of the three actions: cache-hit
replay, downstream invocation, or the 202 short-circuit. -/
theorem exactly_one_action (cfg : List String) (req : Req) (env : Env)
    (b : String) (r : CacheResp)
    (hlay : layoutRouteB req = false)
    (hrec : recordedB cfg req.url = true)
    (hbody : req.bodyRead = some b)
    (hcache : env.cacheResp = some r) :
    (cond (serveHTTP cfg req env).cacheReplayed 1 0)
      + (serveHTTP cfg req env).downstreamCalls
      + (cond (serveHTTP cfg req env).accepted202 1 0) = 1 := by
  by_cases hhit : r.status = 200
  · simp [serveHTTP, hbody, hlay, hrec, hcache, hhit, baseTrace]
  · by_cases hlc : req.longcallback.isEmpty <;>
      simp [serveHTTP, hbody, hlay, hrec, hcache, hhit, hlc, baseTrace]

theorem exactly_one_action_witness :
    (cond (serveHTTP cfg0 req0 env0).cacheReplayed 1 0)
      + (serveHTTP cfg0 req0 env0).downstreamCalls
      + (cond (serveHTTP cfg0 req0 env0).accepted202 1 0) = 1 :=
  exactly_one_action cfg0 req0 env0 "B0" { status := 404, headers := [], body := "" }
    (by decide) (by decide) (by decide) (by decide)

/-! ### The layout short-circuit -/

/-- C7: a request whose URL ends with the layout suffix, whose referer-derived
layout field is non-empty and for which the layout service answers 200 is
served exactly the layout-service body with `Content-Type: application/json`;
no cache probe, no downstream invocation and no telemetry call occur.  The
theorem has no hypothesis excluding recorded routes, so it also shows the
short-circuit takes priority over the recorded-route handling (the witness
uses a URL that is in the recorded list). -/
theorem layout_shortcircuit (cfg : List String) (req : Req) (env : Env)
    (b : String) (r : LayoutResp)
    (hsuf : hasSuffixS req.url "/_dash-layout" = true)
    (hparam : extractParam "layout" req.referer ≠ "")
    (hbody : req.bodyRead = some b)
    (henv : env.layoutResp = some r)
    (hst : r.status = 200) :
    (serveHTTP cfg req env).clientEvents
      = [.setHeader "Content-Type" "application/json", .write r.body] ∧
    bodyChunks (serveHTTP cfg req env).clientEvents = [r.body] ∧
    (serveHTTP cfg req env).cacheProbe = none ∧
    (serveHTTP cfg req env).downstreamCalls = 0 ∧
    (serveHTTP cfg req env).trackCall = none ∧
    (serveHTTP cfg req env).layoutCall
      = some ⟨req.email, extractParam "layout" req.referer,
              extractParam "frame" req.referer⟩ := by
  have hlay : layoutRouteB req = true := by
    simp [layoutRouteB, hsuf, hparam]
  simp [serveHTTP, hbody, hlay, henv, hst, baseTrace, bodyChunks]

def reqLayout : Req :=
  { req0 with url := "http://a/app/_dash-layout" }

def envLayout : Env :=
  { env0 with layoutResp := some { status := 200, body := "L0" } }

theorem layout_shortcircuit_witness :
    (serveHTTP cfg0 reqLayout envLayout).clientEvents
      = [.setHeader "Content-Type" "application/json", .write "L0"] ∧
    bodyChunks (serveHTTP cfg0 reqLayout envLayout).clientEvents = ["L0"] ∧
    (serveHTTP cfg0 reqLayout envLayout).cacheProbe = none ∧
    (serveHTTP cfg0 reqLayout envLayout).downstreamCalls = 0 ∧
    (serveHTTP cfg0 reqLayout envLayout).trackCall = none ∧
    (serveHTTP cfg0 reqLayout envLayout).layoutCall
      = some ⟨reqLayout.email, extractParam "layout" reqLayout.referer,
              extractParam "frame" reqLayout.referer⟩ :=
  layout_shortcircuit cfg0 reqLayout envLayout "B0" { status := 200, body := "L0" }
    (by decide) (by decide) (by decide) rfl rfl

/-! ### Read failure -/

/-- An error indication on the client response: some error status (≥ 400)
was written. -/
def errIndicated (evs : List WEvent) : Bool :=
  evs.any (fun e => match e with
    | .writeHeader n => decide (400 ≤ n)
    | _ => false)

/-- C8 counterexample: when the inbound body read fails, `ServeHTTP` logs and
returns without writing anything to the client (lines 140–144): the client
gets the implicit empty 200 response, not an error indication.  The claim's
"the failure is reported to the caller" is false. -/
theorem read_failure_writes_nothing :
    (serveHTTP cfg0 { req0 with bodyRead := none } env0).clientEvents = [] ∧
    errIndicated (serveHTTP cfg0 { req0 with bodyRead := none } env0).clientEvents
      = false := by
  decide

/-- C8 (amended): a failed body read aborts the whole request early — no
layout fetch, no cache probe, no downstream invocation, no telemetry — but
the failure is only logged: nothing at all is written to the client. -/
theorem read_failure_aborts (cfg : List String) (req : Req) (env : Env)
    (hbody : req.bodyRead = none) :
    (serveHTTP cfg req env).readFailed = true ∧
    (serveHTTP cfg req env).clientEvents = [] ∧
    (serveHTTP cfg req env).layoutCall = none ∧
    (serveHTTP cfg req env).cacheProbe = none ∧
    (serveHTTP cfg req env).downstreamCalls = 0 ∧
    (serveHTTP cfg req env).trackCall = none := by
  simp [serveHTTP, hbody, baseTrace]

theorem read_failure_aborts_witness :
    (serveHTTP cfg0 { req0 with bodyRead := none } env0).readFailed = true ∧
    (serveHTTP cfg0 { req0 with bodyRead := none } env0).clientEvents = [] ∧
    (serveHTTP cfg0 { req0 with bodyRead := none } env0).layoutCall = none ∧
    (serveHTTP cfg0 { req0 with bodyRead := none } env0).cacheProbe = none ∧
    (serveHTTP cfg0 { req0 with bodyRead := none } env0).downstreamCalls = 0 ∧
    (serveHTTP cfg0 { req0 with bodyRead := none } env0).trackCall = none :=
  read_failure_aborts cfg0 { req0 with bodyRead := none } env0 rfl

/-! ### Tracking-request headers -/

def ceBrResp : CacheResp :=
  { status := 200,
    headers := [("Content-Encoding", "br"), ("Expires", "E1"),
                ("Content-Type", "application/json")],
    body := "H1" }

def envCeBr : Env := { env0 with cacheResp := some ceBrResp }

/-- C9 counterexample: the captured response carries a `Content-Encoding`
header with value `"br"`, but the outbound tracking request gets no
`Content-Encoding` header: line 312 forwards it only when its value is
exactly `"gzip"`, not "whatever its value". -/
theorem track_content_encoding_br_dropped :
    headerGet (respHeaders (serveHTTP cfg0 req0 envCeBr).clientEvents)
        "Content-Encoding" = "br" ∧
    ((serveHTTP cfg0 req0 envCeBr).trackCall.map
        (fun p => p.hdrs.contentEncoding)) = some none := by
  decide

/-- C9 (amended): for a recordable request that reached the Hit or the
Forwarded state, the tracking request carries the captured response's
`Expires` and `Content-Type` headers, and carries its `Content-Encoding`
header exactly when that header's value is `"gzip"` (any other value,
including other encodings, is not forwarded). -/
theorem track_headers_forwarded (cfg : List String) (req : Req) (env : Env)
    (b : String) (r : CacheResp)
    (hlay : layoutRouteB req = false)
    (hrec : recordedB cfg req.url = true)
    (hbody : req.bodyRead = some b)
    (hcache : env.cacheResp = some r)
    (hdone : r.status = 200 ∨ req.longcallback.isEmpty = true) :
    ∃ p, (serveHTTP cfg req env).trackCall = some p ∧
      (let hs := respHeaders (serveHTTP cfg req env).clientEvents
       p.hdrs.expires = headerGet hs "Expires" ∧
       p.hdrs.contentType = headerGet hs "Content-Type" ∧
       p.hdrs.contentEncoding
         = (if headerGet hs "Content-Encoding" = "gzip"
            then some "gzip" else none)) := by
  rcases hdone with hhit | hlc
  · simp [serveHTTP, hbody, hlay, hrec, hcache, hhit, baseTrace, mkTrack]
  · by_cases hhit : r.status = 200
    · simp [serveHTTP, hbody, hlay, hrec, hcache, hhit, baseTrace, mkTrack]
    · simp [serveHTTP, hbody, hlay, hrec, hcache, hhit, hlc, baseTrace, mkTrack]

/-! ### Which occurrence the referer patterns select -/

theorem occList_nil_lastOccInLine (key : List Char) :
    ∀ t, occList key t = [] → lastOccInLine key t = none := by
  intro t
  induction t with
  | nil => intro _; rfl
  | cons c r ih =>
    intro h
    by_cases hc : c = '\n'
    · simp [lastOccInLine, hc]
    · cases hp : paramOcc key (c :: r) with
      | some v => simp [occList, hp] at h
      | none =>
        simp only [occList, hp, List.nil_append] at h
        simp [lastOccInLine, hc, ih h, hp]

theorem occList_nil_matchParam (key : List Char) :
    ∀ t, occList key t = [] → matchParam key t = none := by
  intro t
  induction t with
  | nil => intro _; rfl
  | cons c r ih =>
    intro h
    have h1 := occList_nil_lastOccInLine key (c :: r) h
    have h2 : occList key r = [] := by
      cases hp : paramOcc key (c :: r) with
      | some v => simp [occList, hp] at h
      | none => simpa only [occList, hp, List.nil_append] using h
    simp [matchParam, h1, ih h2]

theorem lastOccInLine_eq_getLast (key : List Char) :
    ∀ t, (∀ c ∈ t, c ≠ '\n') →
      lastOccInLine key t = (occList key t).getLast? := by
  intro t
  induction t with
  | nil => intro _; rfl
  | cons c r ih =>
    intro h
    have hc : c ≠ '\n' := h c (List.mem_cons_self c r)
    have hr := ih (fun d hd => h d (List.mem_cons_of_mem c hd))
    by_cases hnil : occList key r = []
    · have hno : lastOccInLine key r = none := occList_nil_lastOccInLine key r hnil
      cases hp : paramOcc key (c :: r) with
      | none => simp [lastOccInLine, occList, hc, hno, hp, hnil]
      | some v => simp [lastOccInLine, occList, hc, hno, hp, hnil]
    · have hsome : ∃ v, lastOccInLine key r = some v := by
        rw [hr]
        cases hl : (occList key r).getLast? with
        | none => exact absurd (List.getLast?_eq_none_iff.mp hl) hnil
        | some v => exact ⟨v, rfl⟩
      rcases hsome with ⟨v, hv⟩
      have hlast : (occList key (c :: r)).getLast? = (occList key r).getLast? := by
        obtain ⟨b, l, hbl⟩ := List.exists_cons_of_ne_nil hnil
        cases hp : paramOcc key (c :: r) <;> simp [occList, hp, hbl]
      rw [hlast, ← hr]
      simp [lastOccInLine, hc, hv]

theorem matchParam_eq_getLast (key : List Char) :
    ∀ t, (∀ c ∈ t, c ≠ '\n') →
      matchParam key t = (occList key t).getLast? := by
  intro t
  induction t with
  | nil => intro _; rfl
  | cons c r ih =>
    intro h
    have hL := lastOccInLine_eq_getLast key (c :: r) h
    cases hv : lastOccInLine key (c :: r) with
    | some v => rw [← hL]; simp [matchParam, hv]
    | none =>
      have hnil : occList key (c :: r) = [] :=
        List.getLast?_eq_none_iff.mp (hL ▸ hv)
      have hrnil : occList key r = [] := by
        cases hp : paramOcc key (c :: r) with
        | some v => simp [occList, hp] at hnil
        | none => simpa only [occList, hp, List.nil_append] using hnil
      have hrec := ih (fun d hd => h d (List.mem_cons_of_mem c hd))
      simp [matchParam, hv, hrec, hrnil, hnil]

/-- C2: the three referer patterns are applied independently to the same
`Referer` string and each yields the empty string when it does not match
(third conjunct: no occurrence of `[?&]key=` with a nonempty value anywhere
means the extraction is `""`); the spec's example referer yields
frame="F1", layout="L2", state="S3", and the absent/empty referer yields all
three empty.  (`frameRegex`/`layoutRegex` are `dashmiddleware.go` lines
66–67; the state pattern of the same shape is compiled in
`src/unnamed/part_001` line 55.) -/
theorem referer_extraction :
    (extractParam "frame" "https://h/app/?frame=F1&layout=L2&state=S3" = "F1" ∧
     extractParam "layout" "https://h/app/?frame=F1&layout=L2&state=S3" = "L2" ∧
     extractParam "state" "https://h/app/?frame=F1&layout=L2&state=S3" = "S3") ∧
    (extractParam "frame" "" = "" ∧ extractParam "layout" "" = "" ∧
     extractParam "state" "" = "") ∧
    (∀ key s : String, occList key.data s.data = [] → extractParam key s = "") := by
  refine ⟨by decide, by decide, ?_⟩
  intro key s h
  simp [extractParam, occList_nil_matchParam key.data s.data h]

theorem referer_extraction_witness :
    extractParam "frame" "https://h/nomatch" = "" :=
  referer_extraction.2.2 "frame" "https://h/nomatch" (by decide)

/-- C10: for every newline-free referer string (header values cannot contain
a newline, which `.` would not match) in which the pattern
`[?&]key=<nonempty value>` occurs at least once — in particular more than
once — the extracted value is that of the last such occurrence, because the
greedy leading `.*` selects the final match; occurrences introduced by `?`
and by `&` are treated identically (`occList` does not distinguish them). -/
theorem extract_selects_last_occurrence (key s : String)
    (hnl : ∀ c ∈ s.data, c ≠ '\n')
    (hne : occList key.data s.data ≠ []) :
    extractParam key s = ⟨((occList key.data s.data).getLast?).getD []⟩ := by
  have h := matchParam_eq_getLast key.data s.data hnl
  cases hl : (occList key.data s.data).getLast? with
  | none => exact absurd (List.getLast?_eq_none_iff.mp hl) hne
  | some v => simp [extractParam, h, hl]

theorem extract_selects_last_occurrence_witness :
    extractParam "frame" "https://h/?frame=A&x=1&frame=B&layout=L1&layout=L2" = "B" ∧
    extractParam "layout" "https://h/?frame=A&x=1&frame=B&layout=L1&layout=L2" = "L2" := by
  constructor
  · rw [extract_selects_last_occurrence "frame"
      "https://h/?frame=A&x=1&frame=B&layout=L1&layout=L2" (by decide) (by decide)]
    decide
  · rw [extract_selects_last_occurrence "layout"
      "https://h/?frame=A&x=1&frame=B&layout=L1&layout=L2" (by decide) (by decide)]
    decide

theorem track_headers_forwarded_witness :
    ∃ p, (serveHTTP cfg0 req0 envCeBr).trackCall = some p ∧
      (let hs := respHeaders (serveHTTP cfg0 req0 envCeBr).clientEvents
       p.hdrs.expires = headerGet hs "Expires" ∧
       p.hdrs.contentType = headerGet hs "Content-Type" ∧
       p.hdrs.contentEncoding
         = (if headerGet hs "Content-Encoding" = "gzip"
            then some "gzip" else none)) :=
  track_headers_forwarded cfg0 req0 envCeBr "B0" _
    (by decide) (by decide) (by decide) rfl (Or.inl rfl)

/-! ### Cookie filtering: what survives the rewrite

The split pattern ` *([^=;]+?) *=[^;]+` requires a nonempty value, so a
`name=` pair with an empty value is not matched and silently disappears from
the forwarded header.  For pairs the pattern does match, the rewrite keeps
exactly the ones whose name lacks the reserved marker, with their original
text. -/

/-- A well-formed cookie pair: nonempty name without `=`/`;`/whitespace,
nonempty value without `;`/whitespace. -/
def wfPair (p : List Char × List Char) : Prop :=
  p.1 ≠ [] ∧ (∀ c ∈ p.1, c ≠ '=' ∧ c ≠ ';' ∧ goSpace c = false) ∧
  p.2 ≠ [] ∧ (∀ c ∈ p.2, c ≠ ';' ∧ goSpace c = false)

instance (p : List Char × List Char) : Decidable (wfPair p) := by
  unfold wfPair; infer_instance

/-- The text `name=value` of one pair. -/
def render1 (p : List Char × List Char) : List Char :=
  p.1 ++ '=' :: p.2

/-- A cookie line made of `;`-separated pairs. -/
def renderLine (ps : List (List Char × List Char)) : List Char :=
  joinSemi (ps.map render1)

theorem nameScan_cons (acc : List Char) (c : Char) (r : List Char) :
    nameScan acc (c :: r)
      = if c = '=' ∨ c = ';' then none
        else
          if (r.dropWhile (fun d => d = ' ')).head? = some '='
          then some (acc ++ [c], (r.dropWhile (fun d => d = ' ')).tail)
          else nameScan (acc ++ [c]) r := by
  rfl

theorem nameScan_rendered :
    ∀ (n acc rest : List Char), n ≠ [] →
      (∀ c ∈ n, c ≠ '=' ∧ c ≠ ';' ∧ goSpace c = false) →
      nameScan acc (n ++ '=' :: rest) = some (acc ++ n, rest) := by
  intro n
  induction n with
  | nil => intro acc rest h _; exact absurd rfl h
  | cons c n2 ih =>
    intro acc rest _ hwf
    have hc := hwf c (List.mem_cons_self c n2)
    rw [List.cons_append, nameScan_cons, if_neg (by simp [hc.1, hc.2.1])]
    cases n2 with
    | nil =>
      have hdw : List.dropWhile (fun d => d = ' ') ('=' :: rest)
          = '=' :: rest := by
        rw [List.dropWhile_cons]
        simp
      rw [List.nil_append, hdw]
      simp
    | cons d n3 =>
      have hd := hwf d (List.mem_cons_of_mem c (List.mem_cons_self d n3))
      have hd2 : d ≠ ' ' := by
        intro h2; rw [h2] at hd; simp [goSpace] at hd
      have hdw : List.dropWhile (fun e => e = ' ') (d :: (n3 ++ '=' :: rest))
          = d :: (n3 ++ '=' :: rest) := by
        rw [List.dropWhile_cons]
        simp [hd2]
      have hcond : ¬ ((d :: (n3 ++ '=' :: rest)).head? = some '=') := by
        simp [hd.1]
      rw [List.cons_append, hdw, if_neg hcond, ← List.cons_append,
        ih (acc ++ [c]) rest (by simp)
          (fun e he => hwf e (List.mem_cons_of_mem c he))]
      simp

theorem takeWhile_all_true (p : Char → Bool) :
    ∀ v : List Char, (∀ c ∈ v, p c = true) → v.takeWhile p = v := by
  intro v
  induction v with
  | nil => intro _; rfl
  | cons c r ih =>
    intro h
    simp [List.takeWhile_cons, h c (List.mem_cons_self c r),
      ih (fun d hd => h d (List.mem_cons_of_mem c hd))]

theorem pairAt_rendered (p : List Char × List Char) (tail : List Char)
    (hwf : wfPair p) (htail : tail = [] ∨ ∃ more, tail = ';' :: more) :
    pairAt (render1 p ++ tail) = some (p.1, render1 p, tail) := by
  obtain ⟨hn, hnc, hv, hvc⟩ := hwf
  obtain ⟨c, n2, hc⟩ := List.exists_cons_of_ne_nil hn
  have hch := hnc c (by rw [hc]; exact List.mem_cons_self c n2)
  have hcsp : c ≠ ' ' := by
    intro h2; rw [h2] at hch; simp [goSpace] at hch
  have hsplit : render1 p ++ tail = p.1 ++ '=' :: (p.2 ++ tail) := by
    simp [render1]
  have hlead : (render1 p ++ tail).takeWhile (fun c => c = ' ') = [] := by
    rw [hsplit, hc]
    simp [List.takeWhile_cons, hcsp]
  have hname := nameScan_rendered p.1 [] (p.2 ++ tail) hn hnc
  have hval : (p.2 ++ tail).takeWhile (fun c => c ≠ ';') = p.2 := by
    have h1 : p.2.takeWhile (fun c => c ≠ ';') = p.2 :=
      takeWhile_all_true _ p.2 (fun c hc2 => by simp [(hvc c hc2).1])
    rcases htail with h | ⟨more, h⟩
    · rw [h, List.append_nil, h1]
    · rw [h, List.takeWhile_append, h1]
      simp [List.takeWhile_cons]
  have hrest : (p.2 ++ tail).drop p.2.length = tail := List.drop_left p.2 tail
  have hfull : (render1 p ++ tail).take ((render1 p ++ tail).length - tail.length)
      = render1 p := by
    have h2 : (render1 p ++ tail).length - tail.length = (render1 p).length := by
      simp [List.length_append]
    rw [h2]; exact List.take_left (render1 p) tail
  unfold pairAt
  rw [hlead]
  simp only [List.length_nil, List.drop_zero]
  rw [hsplit] at hfull ⊢
  rw [hname]
  simp only [hval, hrest, hv, if_neg hv]
  rw [← hsplit] at hfull ⊢
  simp [hfull, hrest, hval]

theorem pairAt_semi (more : List Char) : pairAt (';' :: more) = none := by
  simp [pairAt, nameScan, List.takeWhile_cons]

theorem findPairsF_nil (fuel : Nat) : findPairsF fuel [] = [] := by
  cases fuel <;> rfl

theorem findPairsF_step (fuel : Nat) (t n f rest : List Char)
    (ht : t ≠ []) (h : pairAt t = some (n, f, rest)) :
    findPairsF (fuel + 1) t = (n, f) :: findPairsF fuel rest := by
  obtain ⟨c, r, hcr⟩ := List.exists_cons_of_ne_nil ht
  subst hcr
  simp only [findPairsF, h]

theorem findPairsF_semi (fuel : Nat) (more : List Char) :
    findPairsF (fuel + 1) (';' :: more) = findPairsF fuel more := by
  simp only [findPairsF, pairAt_semi]

theorem findPairsF_rendered :
    ∀ (ps : List (List Char × List Char)) (fuel : Nat),
      (∀ p ∈ ps, wfPair p) → (renderLine ps).length ≤ fuel →
      findPairsF fuel (renderLine ps) = ps.map (fun p => (p.1, render1 p)) := by
  intro ps
  induction ps with
  | nil => intro fuel _ _; exact findPairsF_nil fuel
  | cons p ps2 ih =>
    intro fuel hwf hfuel
    have hwfp := hwf p (List.mem_cons_self p ps2)
    have hne : render1 p ≠ [] := by
      obtain ⟨c, n2, hc⟩ := List.exists_cons_of_ne_nil hwfp.1
      simp [render1, hc]
    have hlen1 : 1 ≤ (render1 p).length := List.length_pos.mpr hne
    cases ps2 with
    | nil =>
      have hrl : renderLine [p] = render1 p := rfl
      rw [hrl] at hfuel ⊢
      cases fuel with
      | zero => omega
      | succ f =>
        have hpa : pairAt (render1 p) = some (p.1, render1 p, []) := by
          have h1 := pairAt_rendered p [] hwfp (Or.inl rfl)
          rw [List.append_nil] at h1
          exact h1
        rw [findPairsF_step f (render1 p) p.1 (render1 p) [] hne hpa,
          findPairsF_nil]
        rfl
    | cons q qs =>
      have hrl : renderLine (p :: q :: qs)
          = render1 p ++ ';' :: renderLine (q :: qs) := rfl
      have hlen : (renderLine (p :: q :: qs)).length
          = (render1 p).length + 1 + (renderLine (q :: qs)).length := by
        rw [hrl]; simp [List.length_append]; omega
      rw [hlen] at hfuel
      rw [hrl]
      cases fuel with
      | zero => omega
      | succ f =>
        have hpa : pairAt (render1 p ++ ';' :: renderLine (q :: qs))
            = some (p.1, render1 p, ';' :: renderLine (q :: qs)) :=
          pairAt_rendered p (';' :: renderLine (q :: qs)) hwfp (Or.inr ⟨_, rfl⟩)
        rw [findPairsF_step f _ p.1 (render1 p) (';' :: renderLine (q :: qs))
          (by simp [hne]) hpa]
        cases f with
        | zero => omega
        | succ f2 =>
          rw [findPairsF_semi f2 (renderLine (q :: qs)),
            ih f2 (fun x hx => hwf x (List.mem_cons_of_mem p hx)) (by omega)]
          rfl

theorem render1_no_space (p : List Char × List Char) (hwf : wfPair p) :
    ∀ c ∈ render1 p, goSpace c = false := by
  obtain ⟨hn, hnc, hv, hvc⟩ := hwf
  intro c hc
  rw [render1, List.mem_append, List.mem_cons] at hc
  rcases hc with h | h | h
  · exact (hnc c h).2.2
  · rw [h]; rfl
  · exact (hvc c h).2

theorem renderLine_no_space :
    ∀ ps, (∀ p ∈ ps, wfPair p) → ∀ c ∈ renderLine ps, goSpace c = false := by
  intro ps
  induction ps with
  | nil => intro _ c hc; simp [renderLine, joinSemi] at hc
  | cons p ps2 ih =>
    intro hwf c hc
    cases ps2 with
    | nil =>
      exact render1_no_space p (hwf p (List.mem_cons_self p [])) c hc
    | cons q qs =>
      have hrl : renderLine (p :: q :: qs)
          = render1 p ++ ';' :: renderLine (q :: qs) := rfl
      rw [hrl, List.mem_append, List.mem_cons] at hc
      rcases hc with h | h | h
      · exact render1_no_space p (hwf p (List.mem_cons_self p _)) c h
      · rw [h]; rfl
      · exact ih (fun x hx => hwf x (List.mem_cons_of_mem p hx)) c h

theorem trimSpace_eq_self (t : List Char) (h : ∀ c ∈ t, goSpace c = false) :
    trimSpace t = t := by
  have h1 : t.dropWhile goSpace = t := by
    cases t with
    | nil => rfl
    | cons c r => simp [List.dropWhile_cons, h c (List.mem_cons_self c r)]
  have h2 : t.reverse.dropWhile goSpace = t.reverse := by
    cases ht : t.reverse with
    | nil => rfl
    | cons c r =>
      have hc : c ∈ t := by
        rw [← List.mem_reverse, ht]; exact List.mem_cons_self c r
      simp [List.dropWhile_cons, h c hc]
  simp [trimSpace, h1, h2]

theorem keepPairs_rendered (ps : List (List Char × List Char))
    (hwf : ∀ p ∈ ps, wfPair p) :
    keepPairs (renderLine ps) = (ps.filter keepPred).map render1 := by
  unfold keepPairs findPairs
  rw [findPairsF_rendered ps _ hwf (Nat.le_refl _)]
  rw [List.filter_map, List.map_map]
  rfl

/-- C6 counterexample: the inbound cookie line `a=;b=2` contains the pair
`a=` — a `name=value` pair with the (non-reserved) name `a` and an empty
original value — but the split pattern requires a nonempty value, so the
pair vanishes: the forwarded cookie header is `b=2` and contains no pair
named `a` at all.  The claim "contains every other pair of the original
lines with its original value" is therefore false as stated. -/
theorem empty_value_pair_dropped :
    forwardCookies ["a=;b=2"] = ["b=2"] ∧
    (forwardCookies ["a=;b=2"]).all
      (fun l => (findPairs l.data).all (fun q => q.1 ≠ "a".data)) = true := by
  decide

/-- C6 (amended): (1) when no pair of any line survives the filtering,
no cookie header is forwarded at all; (2) for every inbound cookie line made
of well-formed `name=value` pairs (names nonempty without `=;` or spaces,
values nonempty without `;` or spaces — in particular nonempty, which the
matching pattern requires), the forwarded cookie header consists exactly of
the pairs whose name does not start with the reserved `_oauth2_proxy`
marker, in order, each with its original name and value; pairs with reserved
names are absent. -/
theorem cookie_filter_correct :
    (∀ lines : List String, (∀ l ∈ lines, keepPairs l.data = []) →
      forwardCookies lines = []) ∧
    (∀ ps : List (List Char × List Char), (∀ p ∈ ps, wfPair p) →
      forwardCookies [⟨renderLine ps⟩]
        = (if ps.filter keepPred = [] then []
           else [⟨renderLine (ps.filter keepPred)⟩])) := by
  constructor
  · intro lines h
    unfold forwardCookies
    rw [List.filterMap_eq_nil_iff]
    intro a ha
    simp [h a ha]
  · intro ps hwf
    have hkp : keepPairs (⟨renderLine ps⟩ : String).data
        = (ps.filter keepPred).map render1 := keepPairs_rendered ps hwf
    unfold forwardCookies
    rw [List.filterMap_cons, List.filterMap_nil]
    rw [hkp]
    by_cases h : ps.filter keepPred = []
    · rw [h]
      simp
    · have hne : (ps.filter keepPred).map render1 ≠ [] := by simpa using h
      rw [if_neg hne, if_neg h]
      have hjr : joinSemi ((ps.filter keepPred).map render1)
          = renderLine (ps.filter keepPred) := rfl
      rw [hjr, trimSpace_eq_self _ (renderLine_no_space _
        (fun x hx => hwf x (List.mem_of_mem_filter hx)))]

def ps0 : List (List Char × List Char) :=
  [("_oauth2_proxy_s".data, "X".data), ("a".data, "1".data), ("b".data, "2".data)]

theorem cookie_filter_correct_witness :
    forwardCookies ["_oauth2_proxy=x"] = [] ∧
    forwardCookies [⟨renderLine ps0⟩]
      = [⟨renderLine (ps0.filter keepPred)⟩] := by
  constructor
  · exact cookie_filter_correct.1 ["_oauth2_proxy=x"] (by decide)
  · rw [cookie_filter_correct.2 ps0 (by decide)]
    decide

end DashMiddleware
